import Mathlib

/-!
Shallow embedding of the usage-source identity / secret-redaction core of the
Cli-Proxy-API-Management-Center front-end (src/src/utils/usage.ts and the
key-stats hooks), together with theorems settling the frozen claims.

JavaScript strings are modelled as `List Char` (one element per UTF-16 code
unit; supplementary-plane code units are approximated by scalar values, which
none of the claims depend on).  JavaScript numbers are modelled as `ℚ`;
the bit mask `& 0xffffffffffffffffn` on BigInt is modelled as `% 2^64` on `ℕ`.
`toLowerCase` is modelled per ASCII character.  Each regular expression of the
source is hand-compiled to an executable scanner with JavaScript leftmost /
first-alternative / greedy match semantics (for these particular patterns the
alternatives are mutually exclusive at any given position, so no further
backtracking arises).
-/

abbrev JStr := List Char

/-- JavaScript whitespace (`\s`, also the set removed by `String.prototype.trim`). -/
def isJsSpace (c : Char) : Bool :=
  let n := c.toNat
  n = 9 || n = 10 || n = 11 || n = 12 || n = 13 || n = 32 || n = 160 || n = 5760 ||
    (8192 ≤ n && n ≤ 8202) || n = 8232 || n = 8233 || n = 8239 || n = 8287 ||
    n = 12288 || n = 65279

/-- ASCII model of `String.prototype.toLowerCase` applied to one character. -/
def toLowerAscii (c : Char) : Char :=
  if 65 ≤ c.toNat ∧ c.toNat ≤ 90 then Char.ofNat (c.toNat + 32) else c

/-- `String.prototype.trim`: strip leading and trailing JS whitespace. -/
def trimJs (s : JStr) : JStr :=
  ((s.dropWhile isJsSpace).reverse.dropWhile isJsSpace).reverse

def isAsciiLetter (c : Char) : Bool :=
  (65 ≤ c.toNat && c.toNat ≤ 90) || (97 ≤ c.toNat && c.toNat ≤ 122)

def isAsciiDigit (c : Char) : Bool := 48 ≤ c.toNat && c.toNat ≤ 57

/-- The character class `[A-Za-z0-9._=-]` (used by the 16–31-length heuristic
    and by the header/Bearer value groups). -/
def isIdChar (c : Char) : Bool :=
  isAsciiLetter c || isAsciiDigit c || c == '.' || c == '_' || c == '=' || c == '-'

/-- JS word character (`\b` boundary test): `[A-Za-z0-9_]`. -/
def isWordChar (c : Char) : Bool := isAsciiLetter c || isAsciiDigit c || c == '_'

/-- Case-insensitive literal match: `pat` is given in lowercase; on success
    returns the remainder of `s`. -/
def matchCI : JStr → JStr → Option JStr
  | [], s => some s
  | _ :: _, [] => none
  | p :: ps, c :: cs => if toLowerAscii c = p then matchCI ps cs else none

/-! ### KEY_LIKE_TOKEN_REGEX

`/(sk-[A-Za-z0-9-_]{6,}|sk-ant-[A-Za-z0-9-_]{6,}|AIza[0-9A-Za-z-_]{8,}|AI[a-zA-Z0-9_-]{6,}|hf_[A-Za-z0-9]{6,}|pk_[A-Za-z0-9]{6,}|rk_[A-Za-z0-9]{6,})/`
(case-sensitive, no flags).  Each alternative is a literal followed by a
greedy character-class tail with a minimum count and nothing after it, so the
greedy match takes the maximal run. -/

def keyTailChar (c : Char) : Bool := isAsciiLetter c || isAsciiDigit c || c == '-' || c == '_'

def keyAlnumChar (c : Char) : Bool := isAsciiLetter c || isAsciiDigit c

/-- One alternative of `KEY_LIKE_TOKEN_REGEX` tried at the current position. -/
def keyLikeAlt (lit : JStr) (cls : Char → Bool) (minLen : ℕ) (s : JStr) : Option JStr :=
  if lit.isPrefixOf s then
    let tail := (s.drop lit.length).takeWhile cls
    if minLen ≤ tail.length then some (lit ++ tail) else none
  else none

/-- All alternatives of `KEY_LIKE_TOKEN_REGEX`, in source order, at one position. -/
def keyLikeMatchAt (s : JStr) : Option JStr :=
  keyLikeAlt "sk-".data keyTailChar 6 s <|>
  keyLikeAlt "sk-ant-".data keyTailChar 6 s <|>
  keyLikeAlt "AIza".data keyTailChar 8 s <|>
  keyLikeAlt "AI".data keyTailChar 6 s <|>
  keyLikeAlt "hf_".data keyAlnumChar 6 s <|>
  keyLikeAlt "pk_".data keyAlnumChar 6 s <|>
  keyLikeAlt "rk_".data keyAlnumChar 6 s

/-- Leftmost match of `KEY_LIKE_TOKEN_REGEX` (`String.prototype.match`, group 0). -/
def keyLikeMatch : JStr → Option JStr
  | [] => none
  | c :: rest => keyLikeMatchAt (c :: rest) <|> keyLikeMatch rest

/-! ### MASKED_TOKEN_HINT_REGEX

`/^[^\s]{1,24}(\*{2,}|\.{3}|…)[^\s]{1,24}$/` — anchored at both ends, so
`.test` is the existence of a decomposition `s = a ++ m ++ b` with the stated
shapes. -/

def maskedSepOk (m : JStr) : Bool :=
  (decide (2 ≤ m.length) && m.all (· == '*')) || decide (m = "...".data) || decide (m = "…".data)

def maskedHintTest (s : JStr) : Bool :=
  (List.range (s.length + 1)).any fun i =>
    (List.range (s.length + 1)).any fun j =>
      let a := s.take i
      let m := (s.drop i).take j
      let b := (s.drop i).drop j
      decide (1 ≤ a.length) && decide (a.length ≤ 24) && a.all (fun c => !isJsSpace c) &&
        maskedSepOk m &&
        decide (1 ≤ b.length) && decide (b.length ≤ 24) && b.all (fun c => !isJsSpace c)

/-! ### Fingerprinter (fnv1a64Hex)

FNV-1a with 64-bit arithmetic over the code units; the BigInt mask
`& 0xffffffffffffffffn` is `% 2^64`.  `hash.toString(16)` is embedded as
`natToHexAux` (16 digits of fuel suffice for any value `< 16^16 = 2^64`),
and `padStart(16, '0')` as `padStart16`.  The memoization cache of the source
(`keyFingerprintCache`) caches this pure function and never changes results,
so it is not represented. -/

def FNV_OFFSET_BASIS : ℕ := 0xcbf29ce484222325
def FNV_PRIME : ℕ := 0x100000001b3

def fnv1a64Go : ℕ → List Char → ℕ
  | h, [] => h
  | h, c :: r => fnv1a64Go (((h ^^^ c.toNat) * FNV_PRIME) % 2 ^ 64) r

def hexDigit (n : ℕ) : Char :=
  if n = 0 then '0' else if n = 1 then '1' else if n = 2 then '2' else if n = 3 then '3'
  else if n = 4 then '4' else if n = 5 then '5' else if n = 6 then '6' else if n = 7 then '7'
  else if n = 8 then '8' else if n = 9 then '9' else if n = 10 then 'a' else if n = 11 then 'b'
  else if n = 12 then 'c' else if n = 13 then 'd' else if n = 14 then 'e' else 'f'

def natToHexAux : ℕ → ℕ → List Char
  | 0, _ => []
  | fuel + 1, n => if n < 16 then [hexDigit n] else natToHexAux fuel (n / 16) ++ [hexDigit (n % 16)]

/-- `n.toString(16)` for `n < 16^16` (the hash is always below `2^64`). -/
def natToHexStr (n : ℕ) : List Char := natToHexAux 16 n

def padStart16 (s : JStr) : JStr := List.replicate (16 - s.length) '0' ++ s

def fnv1a64Hex (value : JStr) : JStr :=
  padStart16 (natToHexStr (fnv1a64Go FNV_OFFSET_BASIS value))

/-! ### looksLikeRawSecret -/

def looksLikeRawSecret (text : JStr) : Bool :=
  if text = [] ∨ text.any isJsSpace then false
  else
    let lower := text.map toLowerAscii
    if ".json".data.isSuffixOf lower then false
    else if "http://".data.isPrefixOf lower ∨ "https://".data.isPrefixOf lower then false
    else if text.any (fun c => c == '\\' || c == '/') then false
    else if (keyLikeMatch text).isSome then true
    else if 32 ≤ text.length ∧ text.length ≤ 512 then true
    else if 16 ≤ text.length ∧ text.length < 32 ∧ text ≠ [] ∧ text.all isIdChar then
      text.any isAsciiLetter && text.any isAsciiDigit
    else false

/-! ### Query-parameter regex

Copy 1 (before the document separator):
`/(?:[?&])(api[-_]?key|key|token|access_token|authorization)=([&#\s]+)/i`
Copy 2 (after it):
`/(?:[?&])(api[-_]?key|key|token|access_token|authorization)=([^&#\s]+)/i`
The two differ only in the character class of the captured value group, so the
scanner is parameterised by that class.  At a given position at most one
key-name alternative can match (the alternatives differ within their first two
characters, and the optional `[-_]?` separator is mutually exclusive with the
following literal), so the first-alternative search is deterministic. -/

def isQueryVal1 (c : Char) : Bool := c == '&' || c == '#' || isJsSpace c
def isQueryVal2 (c : Char) : Bool := !(c == '&' || c == '#' || isJsSpace c)

/-- `[-_]?` then a lowercase literal, greedily preferring to consume the separator. -/
def optSepThen (word : JStr) (r : JStr) : Option JStr :=
  match r with
  | [] => none
  | c :: r₂ => if c = '-' ∨ c = '_' then matchCI word r₂ else matchCI word (c :: r₂)

/-- Group 1 of the query regex: `api[-_]?key|key|token|access_token|authorization`,
    case-insensitive, alternatives in source order. -/
def queryKeyName (s : JStr) : Option JStr :=
  (match matchCI "api".data s with
   | some r₁ => optSepThen "key".data r₁
   | none => none) <|>
  matchCI "key".data s <|>
  matchCI "token".data s <|>
  matchCI "access_token".data s <|>
  matchCI "authorization".data s

/-- Leftmost match of the query-parameter regex; returns the captured group 2. -/
def queryScan (cls : Char → Bool) : JStr → Option JStr
  | [] => none
  | c :: rest =>
    (if c = '?' ∨ c = '&' then
      match queryKeyName rest with
      | some r₁ =>
        match r₁ with
        | c₂ :: r₂ =>
          if c₂ = '=' then
            let v := r₂.takeWhile cls
            if v ≠ [] then some v else none
          else none
        | [] => none
      | none => none
    else none) <|> queryScan cls rest

/-! ### Header-style regex

`/(api[-_]?key|key|token|access[-_]?token|authorization)\s*[:=]\s*([A-Za-z0-9._=-]+)/i`
`\s*` is greedy and its class is disjoint from `[:=]` and from the value class,
so maximal-run scanning is exact. -/

def headerKeyName (s : JStr) : Option JStr :=
  (match matchCI "api".data s with
   | some r₁ => optSepThen "key".data r₁
   | none => none) <|>
  matchCI "key".data s <|>
  matchCI "token".data s <|>
  (match matchCI "access".data s with
   | some r₁ => optSepThen "token".data r₁
   | none => none) <|>
  matchCI "authorization".data s

/-- Leftmost match of the header regex; returns the captured group 2. -/
def headerScan : JStr → Option JStr
  | [] => none
  | c :: rest =>
    (match headerKeyName (c :: rest) with
     | some r₁ =>
       match r₁.dropWhile isJsSpace with
       | c₂ :: r₃ =>
         if c₂ = ':' ∨ c₂ = '=' then
           let v := (r₃.dropWhile isJsSpace).takeWhile isIdChar
           if v ≠ [] then some v else none
         else none
       | [] => none
     | none => none) <|> headerScan rest

/-! ### Bearer regex

`/\bBearer\s+([A-Za-z0-9._=-]{6,})/i`.  The boundary `\b` before a word
character holds iff the previous character is absent or not a word character,
which the scanner threads through. -/

def bearerScan : Bool → JStr → Option JStr
  | _, [] => none
  | prevWord, c :: rest =>
    (if prevWord then none
     else
      match matchCI "bearer".data (c :: rest) with
      | some r₁ =>
        let ws := r₁.takeWhile isJsSpace
        if ws ≠ [] then
          let v := (r₁.dropWhile isJsSpace).takeWhile isIdChar
          if 6 ≤ v.length then some v else none
        else none
      | none => none) <|> bearerScan (isWordChar c) rest

def bearerMatch (s : JStr) : Option JStr := bearerScan false s

/-! ### extractRawSecretFromText — both copies

The two copies of the source file are identical except for the query-value
class (`[&#\s]+` in the copy before the document separator, `[^&#\s]+` in the
copy after it).  Steps (4) and (5), literally identical in both copies, are
shared as `extractHeaderBearerSteps`. -/

def extractBearerStep (text : JStr) : Option JStr :=
  match bearerMatch text with
  | some v => if looksLikeRawSecret v then some v else none
  | none => none

def extractHeaderBearerSteps (text : JStr) : Option JStr :=
  match headerScan text with
  | some v => if looksLikeRawSecret v then some v else extractBearerStep text
  | none => extractBearerStep text

/-- Copy before the document separator (usage.ts lines 80–110). -/
def extractRawSecretFromText1 (text : JStr) : Option JStr :=
  if text = [] then none
  else if looksLikeRawSecret text then some text
  else
    match keyLikeMatch text with
    | some m => some m
    | none =>
      match queryScan isQueryVal1 text with
      | some v => if looksLikeRawSecret v then some v else extractHeaderBearerSteps text
      | none => extractHeaderBearerSteps text

/-- Copy after the document separator (usage.ts lines 314–344). -/
def extractRawSecretFromText2 (text : JStr) : Option JStr :=
  if text = [] then none
  else if looksLikeRawSecret text then some text
  else
    match keyLikeMatch text with
    | some m => some m
    | none =>
      match queryScan isQueryVal2 text with
      | some v => if looksLikeRawSecret v then some v else extractHeaderBearerSteps text
      | none => extractHeaderBearerSteps text

/-! ### JS values, maskApiKey, normalizeUsageSourceId -/

/-- A JavaScript value as far as the core observes it.  A finite number carries
    its ECMAScript decimal string (`String(n)`); a non-finite number carries
    `"NaN"` / `"Infinity"` / `"-Infinity"`; `other` covers remaining values and
    carries the result of generic stringification.  Floating-point formatting
    itself is outside the embedding. -/
inductive JsVal where
  | str (s : JStr)
  | finiteNum (dec : JStr)
  | nonFinite (dec : JStr)
  | jsNull
  | undef
  | other (coerced : JStr)
deriving DecidableEq

/-- The string coercion at the top of `normalizeUsageSourceId`:
    strings pass through, `null`/`undefined` become `""`, others `String(value)`. -/
def coerceToString : JsVal → JStr
  | .str s => s
  | .finiteNum d => d
  | .nonFinite d => d
  | .jsNull => []
  | .undef => []
  | .other c => c

/-- Modelled from the spec: `maskApiKey` lives in `src/utils/format.ts`, which is
    not among the provided sources.  Spec §4.3: the default masking function
    "shortens to a fixed-length prefix/suffix display form, e.g. first 4 chars +
    `***` + last 4 chars, or just first 4 chars + `***` when length ≤ 8". -/
def maskApiKey (s : JStr) : JStr :=
  if s.length ≤ 8 then s.take 4 ++ "***".data
  else s.take 4 ++ "***".data ++ s.drop (s.length - 4)

/-- `normalizeUsageSourceId`, copy before the document separator
    (uses `extractRawSecretFromText1`). -/
def normalizeUsageSourceId1 (value : JsVal) (masker : JStr → JStr := maskApiKey) : JStr :=
  let trimmed := trimJs (coerceToString value)
  if trimmed = [] then []
  else
    match extractRawSecretFromText1 trimmed with
    | some extracted => "k:".data ++ fnv1a64Hex extracted
    | none =>
      if maskedHintTest trimmed then "m:".data ++ masker trimmed
      else "t:".data ++ trimmed

/-- `normalizeUsageSourceId`, copy after the document separator
    (uses `extractRawSecretFromText2`). -/
def normalizeUsageSourceId2 (value : JsVal) (masker : JStr → JStr := maskApiKey) : JStr :=
  let trimmed := trimJs (coerceToString value)
  if trimmed = [] then []
  else
    match extractRawSecretFromText2 trimmed with
    | some extracted => "k:".data ++ fnv1a64Hex extracted
    | none =>
      if maskedHintTest trimmed then "m:".data ++ masker trimmed
      else "t:".data ++ trimmed

/-! ### buildCandidateUsageSourceIds -/

/-- `Array.from(new Set(list))`: drop duplicates keeping first occurrences. -/
def jsSetDedupAux : List JStr → List JStr → List JStr
  | _, [] => []
  | seen, a :: r => if a ∈ seen then jsSetDedupAux seen r else a :: jsSetDedupAux (a :: seen) r

def jsSetDedup (l : List JStr) : List JStr := jsSetDedupAux [] l

structure CandidateInput where
  apiKey : Option JStr
  prefixStr : Option JStr

/-- Both copies of `buildCandidateUsageSourceIds` are identical: push the
    `t:`-id from the trimmed prefix when truthy, then the `k:` and `m:` ids
    from the trimmed apiKey when truthy, then de-duplicate. -/
def buildCandidateUsageSourceIds (input : CandidateInput) : List JStr :=
  let fromPfx : List JStr :=
    match input.prefixStr.map trimJs with
    | some p => if p ≠ [] then ["t:".data ++ p] else []
    | none => []
  let fromKey : List JStr :=
    match input.apiKey.map trimJs with
    | some k => if k ≠ [] then ["k:".data ++ fnv1a64Hex k, "m:".data ++ maskApiKey k] else []
    | none => []
  jsSetDedup (fromPfx ++ fromKey)

/-! ### normalizeAuthIndex -/

def normalizeAuthIndex : JsVal → Option JStr
  | .finiteNum d => some d
  | .nonFinite _ => none
  | .str s => let t := trimJs s; if t = [] then none else some t
  | .jsNull => none
  | .undef => none
  | .other _ => none

/-! ### Status bar (TimeBucketer) -/

inductive StatusBlockState where
  | success
  | failure
  | mixed
  | idle
deriving DecidableEq

structure StatusBlockDetail where
  success : ℚ
  failure : ℚ
  rate : ℚ
  startTime : ℚ
  endTime : ℚ
deriving DecidableEq

structure StatusBarData where
  blocks : List StatusBlockState
  blockDetails : List StatusBlockDetail
  successRate : ℚ
  totalSuccess : ℚ
  totalFailure : ℚ
deriving DecidableEq

/-- One element of the `blocks` input array: `{ success, failure }`. -/
structure BlockStat where
  success : ℚ
  failure : ℚ
deriving DecidableEq

/-- `EMPTY_STATUS_BAR` (both copies construct the same value, 20 idle blocks). -/
def EMPTY_STATUS_BAR : StatusBarData where
  blocks := List.replicate 20 .idle
  blockDetails := List.replicate 20 ⟨0, 0, -1, 0, 0⟩
  successRate := 100
  totalSuccess := 0
  totalFailure := 0

/-- The `blocks.forEach` loop of `blocksToStatusBarData`, copy before the
    document separator (lines 199–222): classification, detail, and running
    totals per block, indexed from `idx`. -/
def statusBarLoop1 (ws dur : ℚ) :
    ℕ → List BlockStat → List StatusBlockState × List StatusBlockDetail × ℚ × ℚ
  | _, [] => ([], [], 0, 0)
  | idx, b :: rest =>
    let total := b.success + b.failure
    let st : StatusBlockState :=
      if total = 0 then .idle
      else if b.failure = 0 then .success
      else if b.success = 0 then .failure
      else .mixed
    let blockStartTime := ws + (idx : ℚ) * dur
    let detail : StatusBlockDetail :=
      ⟨b.success, b.failure, if 0 < total then b.success / total else -1,
        blockStartTime, blockStartTime + dur⟩
    let r := statusBarLoop1 ws dur (idx + 1) rest
    (st :: r.1, detail :: r.2.1, b.success + r.2.2.1, b.failure + r.2.2.2)

/-- `blocksToStatusBarData`, copy before the document separator (lines 189–234):
    no empty-input guard. -/
def blocksToStatusBarData1 (blocks : List BlockStat) (windowStartMs blockDurationMs : ℚ) :
    StatusBarData :=
  let r := statusBarLoop1 windowStartMs blockDurationMs 0 blocks
  let total := r.2.2.1 + r.2.2.2
  { blocks := r.1
    blockDetails := r.2.1
    successRate := if 0 < total then r.2.2.1 / total * 100 else 100
    totalSuccess := r.2.2.1
    totalFailure := r.2.2.2 }

/-- The `blocks.forEach` loop of `blocksToStatusBarData`, copy after the
    document separator (lines 447–462); it accumulates the totals before the
    pushes, which does not change the outcome. -/
def statusBarLoop2 (ws dur : ℚ) :
    ℕ → List BlockStat → List StatusBlockState × List StatusBlockDetail × ℚ × ℚ
  | _, [] => ([], [], 0, 0)
  | idx, b :: rest =>
    let total := b.success + b.failure
    let startTime := ws + (idx : ℚ) * dur
    let endTime := startTime + dur
    let rate : ℚ := if 0 < total then b.success / total else -1
    let st : StatusBlockState :=
      if total = 0 then .idle
      else if b.failure = 0 then .success
      else if b.success = 0 then .failure
      else .mixed
    let detail : StatusBlockDetail := ⟨b.success, b.failure, rate, startTime, endTime⟩
    let r := statusBarLoop2 ws dur (idx + 1) rest
    (st :: r.1, detail :: r.2.1, b.success + r.2.2.1, b.failure + r.2.2.2)

/-- `blocksToStatusBarData`, copy after the document separator (lines 435–468):
    returns `EMPTY_STATUS_BAR` on an empty input. -/
def blocksToStatusBarData2 (blocks : List BlockStat) (windowStartMs blockDurationMs : ℚ) :
    StatusBarData :=
  if blocks = [] then EMPTY_STATUS_BAR
  else
    let r := statusBarLoop2 windowStartMs blockDurationMs 0 blocks
    let total := r.2.2.1 + r.2.2.2
    { blocks := r.1
      blockDetails := r.2.1
      successRate := if 0 < total then r.2.2.1 / total * 100 else 100
      totalSuccess := r.2.2.1
      totalFailure := r.2.2.2 }

/-! ### Key-stats records, maps and the hook state machines

JS `Record`s and insertion-ordered `Map`s are modelled as association lists;
`m[k] = v` / `m.set(k, v)` updates in place when the key exists and appends
otherwise. -/

def mapSet {β : Type} (m : List (JStr × β)) (k : JStr) (v : β) : List (JStr × β) :=
  if (m.lookup k).isSome then m.map (fun p => if p.1 = k then (k, v) else p)
  else m ++ [(k, v)]

structure KeyStatBucket where
  success : ℚ
  failure : ℚ
deriving DecidableEq

structure KeyStats where
  bySource : List (JStr × KeyStatBucket)
  byAuthIndex : List (JStr × KeyStatBucket)
deriving DecidableEq

def EMPTY_KEY_STATS : KeyStats := ⟨[], []⟩

structure BlockConfig where
  window_start_ms : ℚ
  duration_ms : ℚ
deriving DecidableEq

/-- Response entry as consumed by the hooks in `part_002` / `part_012`
    (`entry.blocks` accessed directly, hence required). -/
structure KeyStatsEntry where
  success : ℚ
  failure : ℚ
  blocks : List BlockStat
deriving DecidableEq

structure MonitorKeyStatsResponse where
  by_source : List (JStr × KeyStatsEntry)
  by_auth_index : List (JStr × KeyStatsEntry)
  block_config : BlockConfig
deriving DecidableEq

/-- Response entry as consumed by the named hooks (`entry.blocks?.length`,
    hence optional). -/
structure KeyStatsEntryOpt where
  success : ℚ
  failure : ℚ
  blocks : Option (List BlockStat)
deriving DecidableEq

structure MonitorKeyStatsResponseOpt where
  by_source : List (JStr × KeyStatsEntryOpt)
  by_auth_index : List (JStr × KeyStatsEntryOpt)
  block_config : BlockConfig
deriving DecidableEq

/-- `processKeyStatsResponse` of `part_002` (`useAuthFilesStats` variant):
    copies buckets for both dimensions and builds the status-bar map over
    `by_auth_index`.  The ambient `blocksToStatusBarData` import is embedded
    as the copy after the document separator; the claims it settles do not
    depend on that choice. -/
def processKeyStatsResponse002 (r : MonitorKeyStatsResponse) :
    KeyStats × List (JStr × StatusBarData) :=
  let bySource := r.by_source.foldl (fun m kv => mapSet m kv.1 ⟨kv.2.success, kv.2.failure⟩) []
  let authStep := fun (acc : List (JStr × KeyStatBucket) × List (JStr × StatusBarData))
      (kv : JStr × KeyStatsEntry) =>
    (mapSet acc.1 kv.1 ⟨kv.2.success, kv.2.failure⟩,
     mapSet acc.2 kv.1
       (blocksToStatusBarData2 kv.2.blocks r.block_config.window_start_ms
         r.block_config.duration_ms))
  let auth := r.by_auth_index.foldl authStep ([], [])
  (⟨bySource, auth.1⟩, auth.2)

/-- `processKeyStatsResponse` of `part_012` (`useProviderStats` variant):
    the status-bar map is built over `by_source` (raw keys, no normalization). -/
def processKeyStatsResponse012 (r : MonitorKeyStatsResponse) :
    KeyStats × List (JStr × StatusBarData) :=
  let srcStep := fun (acc : List (JStr × KeyStatBucket) × List (JStr × StatusBarData))
      (kv : JStr × KeyStatsEntry) =>
    (mapSet acc.1 kv.1 ⟨kv.2.success, kv.2.failure⟩,
     mapSet acc.2 kv.1
       (blocksToStatusBarData2 kv.2.blocks r.block_config.window_start_ms
         r.block_config.duration_ms))
  let src := r.by_source.foldl srcStep ([], [])
  let byAuthIndex :=
    r.by_auth_index.foldl (fun m kv => mapSet m kv.1 ⟨kv.2.success, kv.2.failure⟩) []
  (⟨src.1, byAuthIndex⟩, src.2)

def STALE_TIME_MS : ℚ := 240000

/-- The staleness test of `part_002`/`part_012`:
    `lastRefreshedAt.current && Date.now() - lastRefreshedAt.current < STALE_TIME_MS`
    (`null` and `0` are falsy). -/
def staleGuard (last : Option ℚ) (now : ℚ) : Bool :=
  match last with
  | none => false
  | some t => decide (t ≠ 0) && decide (now - t < STALE_TIME_MS)

/-- State of the `part_002` hook: the two `useState` values and the
    `lastRefreshedAt` ref. -/
structure AuthFilesStatsState002 where
  keyStats : KeyStats
  statusBarByAuthIndex : List (JStr × StatusBarData)
  lastRefreshedAt : Option ℚ
deriving DecidableEq

/-- One complete `loadKeyStats()` call of `part_002`.  `now₀` is `Date.now()`
    at the staleness check, `now₁` at the post-fetch assignment; `resp` is the
    fetched response (`none` models a rejected fetch, caught silently).
    The returned flag records whether `monitorApi.getKeyStats()` was invoked. -/
def loadKeyStats002 (s : AuthFilesStatsState002) (now₀ now₁ : ℚ)
    (resp : Option MonitorKeyStatsResponse) : Bool × AuthFilesStatsState002 :=
  if staleGuard s.lastRefreshedAt now₀ then (false, s)
  else
    match resp with
    | some r =>
      let pr := processKeyStatsResponse002 r
      (true, ⟨pr.1, pr.2, some now₁⟩)
    | none => (true, s)

/-- One complete `refreshKeyStats()` call of `part_002`: no staleness check. -/
def refreshKeyStats002 (s : AuthFilesStatsState002) (now₁ : ℚ)
    (resp : Option MonitorKeyStatsResponse) : Bool × AuthFilesStatsState002 :=
  match resp with
  | some r =>
    let pr := processKeyStatsResponse002 r
    (true, ⟨pr.1, pr.2, some now₁⟩)
  | none => (true, s)

/-- State of the `part_012` hook (adds the `isLoading` UI flag). -/
structure ProviderStatsState012 where
  keyStats : KeyStats
  statusBarBySource : List (JStr × StatusBarData)
  isLoading : Bool
  lastRefreshedAt : Option ℚ
deriving DecidableEq

/-- One complete `loadKeyStats()` call of `part_012`: the staleness check runs
    before `setIsLoading(true)`; the `finally` clears `isLoading`. -/
def loadKeyStats012 (s : ProviderStatsState012) (now₀ now₁ : ℚ)
    (resp : Option MonitorKeyStatsResponse) : Bool × ProviderStatsState012 :=
  if staleGuard s.lastRefreshedAt now₀ then (false, s)
  else
    match resp with
    | some r =>
      let pr := processKeyStatsResponse012 r
      (true, ⟨pr.1, pr.2, false, some now₁⟩)
    | none => (true, { s with isLoading := false })

/-- One complete `refreshKeyStats()` call of `part_012`: no staleness check. -/
def refreshKeyStats012 (s : ProviderStatsState012) (now₁ : ℚ)
    (resp : Option MonitorKeyStatsResponse) : Bool × ProviderStatsState012 :=
  match resp with
  | some r =>
    let pr := processKeyStatsResponse012 r
    (true, ⟨pr.1, pr.2, false, some now₁⟩)
  | none => (true, { s with isLoading := false })

/-! ### The named hooks (src/src/..., with the in-flight ref guard) -/

/-- `bySource[normalizedId]` accumulation of the named hooks: merge into the
    existing bucket or insert a fresh one. -/
def recordMergeBucket (m : List (JStr × KeyStatBucket)) (k : JStr) (b : KeyStatBucket) :
    List (JStr × KeyStatBucket) :=
  match m.lookup k with
  | some ex => mapSet m k ⟨ex.success + b.success, ex.failure + b.failure⟩
  | none => m ++ [(k, b)]

/-- The fetch body of the named `useAuthFilesStats` (src/src/features/authFiles):
    normalize `by_source` keys (skipping empty ids), copy `by_auth_index`
    buckets, and build the bar map over `by_auth_index` where
    `entry.blocks?.length` is truthy. -/
def processNamedAF (r : MonitorKeyStatsResponseOpt) : KeyStats × List (JStr × StatusBarData) :=
  let ws := r.block_config.window_start_ms
  let dur := r.block_config.duration_ms
  let bySource := r.by_source.foldl
    (fun m kv =>
      let normalizedId := normalizeUsageSourceId2 (.str kv.1)
      if normalizedId = [] then m
      else recordMergeBucket m normalizedId ⟨kv.2.success, kv.2.failure⟩) []
  let authStep := fun (acc : List (JStr × KeyStatBucket) × List (JStr × StatusBarData))
      (kv : JStr × KeyStatsEntryOpt) =>
    (mapSet acc.1 kv.1 ⟨kv.2.success, kv.2.failure⟩,
     match kv.2.blocks with
     | some bl => if bl ≠ [] then mapSet acc.2 kv.1 (blocksToStatusBarData2 bl ws dur) else acc.2
     | none => acc.2)
  let auth := r.by_auth_index.foldl authStep ([], [])
  (⟨bySource, auth.1⟩, auth.2)

/-- The fetch body of the named `useProviderStats` (src/src/components/providers):
    like `processNamedAF` but the bar map is keyed by the normalized id and
    built in the `by_source` loop. -/
def processNamedPS (r : MonitorKeyStatsResponseOpt) : KeyStats × List (JStr × StatusBarData) :=
  let ws := r.block_config.window_start_ms
  let dur := r.block_config.duration_ms
  let srcStep := fun (acc : List (JStr × KeyStatBucket) × List (JStr × StatusBarData))
      (kv : JStr × KeyStatsEntryOpt) =>
    let normalizedId := normalizeUsageSourceId2 (.str kv.1)
    if normalizedId = [] then acc
    else
      (recordMergeBucket acc.1 normalizedId ⟨kv.2.success, kv.2.failure⟩,
       match kv.2.blocks with
       | some bl =>
         if bl ≠ [] then mapSet acc.2 normalizedId (blocksToStatusBarData2 bl ws dur) else acc.2
       | none => acc.2)
  let src := r.by_source.foldl srcStep ([], [])
  let byAuthIndex :=
    r.by_auth_index.foldl (fun m kv => mapSet m kv.1 ⟨kv.2.success, kv.2.failure⟩) []
  (⟨src.1, byAuthIndex⟩, src.2)

/-- State of the named `useAuthFilesStats`: two `useState` values and the
    `loadingKeyStatsRef` in-flight guard. -/
structure AuthFilesStatsStateNamed where
  keyStats : KeyStats
  statusBarByAuthIndex : List (JStr × StatusBarData)
  loadingKeyStats : Bool
deriving DecidableEq

/-- One complete `loadKeyStats()` call of the named `useAuthFilesStats`:
    dropped when the guard is set; otherwise the guard is set for the duration
    of the call and cleared in the `finally`. -/
def loadKeyStatsNamedAF (s : AuthFilesStatsStateNamed)
    (resp : Option MonitorKeyStatsResponseOpt) : Bool × AuthFilesStatsStateNamed :=
  if s.loadingKeyStats then (false, s)
  else
    match resp with
    | some r =>
      let pr := processNamedAF r
      (true, ⟨pr.1, pr.2, false⟩)
    | none => (true, { s with loadingKeyStats := false })

/-- State of the named `useProviderStats`: `loadingRef` is the in-flight guard,
    `isLoading` the UI flag mirroring it. -/
structure ProviderStatsStateNamed where
  keyStats : KeyStats
  statusBarBySource : List (JStr × StatusBarData)
  isLoading : Bool
  loadingRef : Bool
deriving DecidableEq

/-- One complete `loadKeyStats()` call of the named `useProviderStats`. -/
def loadKeyStatsNamedPS (s : ProviderStatsStateNamed)
    (resp : Option MonitorKeyStatsResponseOpt) : Bool × ProviderStatsStateNamed :=
  if s.loadingRef then (false, s)
  else
    match resp with
    | some r =>
      let pr := processNamedPS r
      (true, ⟨pr.1, pr.2, false, false⟩)
    | none => (true, { s with isLoading := false, loadingRef := false })

/-! ### useAuthFilesStatusBarCache (part_003) -/

/-- An auth-file item as observed by the cache hook: the `auth_index` and
    `authIndex` fields (either may be absent, i.e. `undefined`). -/
structure AuthFileItem where
  auth_index : JsVal
  authIndex : JsVal
deriving DecidableEq

/-- The nullish-coalescing operator `a ?? b`. -/
def jsNullish (a b : JsVal) : JsVal :=
  match a with
  | .jsNull => b
  | .undef => b
  | _ => a

/-- The body of the `files.forEach` in `useAuthFilesStatusBarCache`: resolve
    the auth-index key; when truthy, cache the status bar (or the shared empty
    value); otherwise add nothing. -/
def statusBarCacheStep (statusBarByAuthIndex : List (JStr × StatusBarData))
    (cache : List (JStr × StatusBarData)) (file : AuthFileItem) :
    List (JStr × StatusBarData) :=
  match normalizeAuthIndex (jsNullish file.auth_index file.authIndex) with
  | some k =>
    if k = [] then cache
    else mapSet cache k ((statusBarByAuthIndex.lookup k).getD EMPTY_STATUS_BAR)
  | none => cache

def useAuthFilesStatusBarCache (files : List AuthFileItem)
    (statusBarByAuthIndex : List (JStr × StatusBarData)) : List (JStr × StatusBarData) :=
  files.foldl (statusBarCacheStep statusBarByAuthIndex) []

/-! ## Lemmas and claim theorems -/

/-- The two `forEach` loops compute the same tuples. -/
lemma statusBarLoop_eq (ws dur : ℚ) (l : List BlockStat) :
    ∀ i, statusBarLoop1 ws dur i l = statusBarLoop2 ws dur i l := by
  induction l with
  | nil => intro i; rfl
  | cons b r ih => intro i; simp [statusBarLoop1, statusBarLoop2, ih]

/-- **C1, counterexample.**  The copy of `blocksToStatusBarData` at usage.ts
    lines 189–234 does not return the canonical empty `StatusBarData` on an
    empty input: its `blocks` array is empty instead of 20 idle entries. -/
theorem blocksToStatusBarData1_empty_ne_canonical :
    blocksToStatusBarData1 [] 0 0 ≠ EMPTY_STATUS_BAR := by decide

/-- **C1, amended.**  On an empty blocks array, for every `windowStartMs` and
    `blockDurationMs`: the copy at lines 435–468 returns the canonical empty
    `StatusBarData` (20 idle blocks, `successRate = 100`, zero totals), while
    the copy at lines 189–234 returns a `StatusBarData` with empty `blocks`
    and `blockDetails` arrays, `successRate = 100` and zero totals. -/
theorem blocksToStatusBarData_empty_behavior :
    ∀ (windowStartMs blockDurationMs : ℚ),
      blocksToStatusBarData2 [] windowStartMs blockDurationMs = EMPTY_STATUS_BAR ∧
      blocksToStatusBarData1 [] windowStartMs blockDurationMs = ⟨[], [], 100, 0, 0⟩ := by
  intro ws dur
  refine ⟨rfl, ?_⟩
  simp [blocksToStatusBarData1, statusBarLoop1]

/-- **C7.**  `normalizeAuthIndex` maps a finite number to its decimal string
    and a string with non-empty trimmed form to the trimmed string; every other
    input (non-finite number, `null`, `undefined`, other objects, empty or
    whitespace-only string) yields `none`, and the status-bar cache of
    `useAuthFilesStatusBarCache` adds no entry for a file whose auth index is
    not resolvable. -/
theorem normalizeAuthIndex_spec :
    (∀ d, normalizeAuthIndex (.finiteNum d) = some d) ∧
    (∀ d, normalizeAuthIndex (.nonFinite d) = none) ∧
    (∀ s, normalizeAuthIndex (.str s) = if trimJs s = [] then none else some (trimJs s)) ∧
    normalizeAuthIndex .jsNull = none ∧
    normalizeAuthIndex .undef = none ∧
    (∀ c, normalizeAuthIndex (.other c) = none) ∧
    (∀ statusBarByAuthIndex cache file,
        normalizeAuthIndex (jsNullish file.auth_index file.authIndex) = none →
        statusBarCacheStep statusBarByAuthIndex cache file = cache) := by
  refine ⟨fun d => rfl, fun d => rfl, fun s => rfl, rfl, rfl, fun c => rfl, ?_⟩
  intro m cache file h
  simp [statusBarCacheStep, h]

theorem normalizeAuthIndex_spec_witness :
    statusBarCacheStep [] [] ⟨.jsNull, .undef⟩ = [] :=
  normalizeAuthIndex_spec.2.2.2.2.2.2 [] [] ⟨.jsNull, .undef⟩ rfl

/-- **C8, counterexample.**  The two copies do not denote the same functions:
    the `extractRawSecretFromText` copies disagree on
    `"a ?key=" ++ "!"*32` (the first captures runs of `&`/`#`/whitespace in its
    query step and returns `null` here, the second returns the 32-character
    value), and the `blocksToStatusBarData` copies disagree on the empty
    blocks array. -/
theorem usage_copies_differ :
    extractRawSecretFromText1 ("a ?key=".data ++ List.replicate 32 '!') ≠
      extractRawSecretFromText2 ("a ?key=".data ++ List.replicate 32 '!') ∧
    blocksToStatusBarData1 [] 0 0 ≠ blocksToStatusBarData2 [] 0 0 := by
  exact ⟨by decide, by decide⟩

/-- **C8, amended.**  The two `blocksToStatusBarData` copies agree on every
    non-empty blocks array, and the two `extractRawSecretFromText` copies agree
    on every string on which their query-parameter regexes capture the same
    result (they differ only in that value class). -/
theorem usage_copies_agree_conditionally :
    (∀ (blocks : List BlockStat) (ws dur : ℚ), blocks ≠ [] →
        blocksToStatusBarData1 blocks ws dur = blocksToStatusBarData2 blocks ws dur) ∧
    (∀ text, queryScan isQueryVal1 text = queryScan isQueryVal2 text →
        extractRawSecretFromText1 text = extractRawSecretFromText2 text) := by
  constructor
  · intro blocks ws dur h
    simp [blocksToStatusBarData1, blocksToStatusBarData2, h, statusBarLoop_eq]
  · intro text h
    unfold extractRawSecretFromText1 extractRawSecretFromText2
    rw [h]

theorem usage_copies_agree_conditionally_witness :
    blocksToStatusBarData1 [⟨1, 2⟩] 3 4 = blocksToStatusBarData2 [⟨1, 2⟩] 3 4 ∧
    extractRawSecretFromText1 "hello".data = extractRawSecretFromText2 "hello".data :=
  ⟨usage_copies_agree_conditionally.1 _ 3 4 (by decide),
   usage_copies_agree_conditionally.2 _ (by decide)⟩

/-- **C9.**  In the `part_002` and `part_012` hooks: when a recorded (hence
    positive) last-refreshed timestamp is less than `STALE_TIME_MS` old,
    `loadKeyStats` returns without fetching and leaves the whole state
    (stored key stats and status-bar map included) unchanged; `refreshKeyStats`
    always fetches, and on a successful fetch installs the processed response
    and the new timestamp. -/
theorem staleness_skip_and_refresh :
    (∀ (s : AuthFilesStatsState002) (now₀ now₁ : ℚ) resp (t : ℚ),
        s.lastRefreshedAt = some t → 0 < t → now₀ - t < STALE_TIME_MS →
        loadKeyStats002 s now₀ now₁ resp = (false, s)) ∧
    (∀ (s : ProviderStatsState012) (now₀ now₁ : ℚ) resp (t : ℚ),
        s.lastRefreshedAt = some t → 0 < t → now₀ - t < STALE_TIME_MS →
        loadKeyStats012 s now₀ now₁ resp = (false, s)) ∧
    (∀ (s : AuthFilesStatsState002) (now₁ : ℚ) resp,
        (refreshKeyStats002 s now₁ resp).1 = true) ∧
    (∀ (s : ProviderStatsState012) (now₁ : ℚ) resp,
        (refreshKeyStats012 s now₁ resp).1 = true) ∧
    (∀ (s : AuthFilesStatsState002) (now₁ : ℚ) r,
        refreshKeyStats002 s now₁ (some r) =
          (true, ⟨(processKeyStatsResponse002 r).1, (processKeyStatsResponse002 r).2,
            some now₁⟩)) ∧
    (∀ (s : ProviderStatsState012) (now₁ : ℚ) r,
        refreshKeyStats012 s now₁ (some r) =
          (true, ⟨(processKeyStatsResponse012 r).1, (processKeyStatsResponse012 r).2,
            false, some now₁⟩)) := by
  refine ⟨?_, ?_, ?_, ?_, fun s now₁ r => rfl, fun s now₁ r => rfl⟩
  · intro s now₀ now₁ resp t h1 h2 h3
    simp [loadKeyStats002, staleGuard, h1, h2.ne', h3]
  · intro s now₀ now₁ resp t h1 h2 h3
    simp [loadKeyStats012, staleGuard, h1, h2.ne', h3]
  · intro s now₁ resp
    cases resp <;> rfl
  · intro s now₁ resp
    cases resp <;> rfl

theorem staleness_skip_and_refresh_witness :
    loadKeyStats002 ⟨EMPTY_KEY_STATS, [], some 1000⟩ 1200 1300 none =
      (false, ⟨EMPTY_KEY_STATS, [], some 1000⟩) :=
  staleness_skip_and_refresh.1 _ 1200 1300 none 1000 rfl (by norm_num)
    (by norm_num [STALE_TIME_MS])

/-- **C10, counterexample.**  In the `part_012` hook a call made while a pass
    is in flight (`isLoading = true`, timestamp not yet recorded) is not
    dropped: both `loadKeyStats` and `refreshKeyStats` still issue the fetch —
    there is no boolean in-flight guard in the `part_002`/`part_012` hooks. -/
theorem part012_no_inflight_guard :
    (loadKeyStats012 ⟨EMPTY_KEY_STATS, [], true, none⟩ 0 0 none).1 = true ∧
    (refreshKeyStats012 ⟨EMPTY_KEY_STATS, [], true, none⟩ 0 none).1 = true :=
  ⟨rfl, rfl⟩

/-- **C10, amended.**  The named hooks (`src/src/components/providers/hooks/`
    `useProviderStats.ts` and `src/src/features/authFiles/hooks/`
    `useAuthFilesStats.ts`) keep a boolean in-flight ref that is set before the
    fetch and cleared in the `finally`, and any `loadKeyStats` call made while
    it is set is a silent no-op; the `part_002`/`part_012` variants have no
    in-flight guard: their `loadKeyStats` is dropped only by the staleness
    check, and `refreshKeyStats` always fetches. -/
theorem inflight_guard_behavior :
    (∀ (s : AuthFilesStatsStateNamed) resp, s.loadingKeyStats = true →
        loadKeyStatsNamedAF s resp = (false, s)) ∧
    (∀ (s : AuthFilesStatsStateNamed) resp,
        (loadKeyStatsNamedAF s resp).2.loadingKeyStats = false ∨
          loadKeyStatsNamedAF s resp = (false, s)) ∧
    (∀ (s : ProviderStatsStateNamed) resp, s.loadingRef = true →
        loadKeyStatsNamedPS s resp = (false, s)) ∧
    (∀ (s : ProviderStatsStateNamed) resp,
        (loadKeyStatsNamedPS s resp).2.loadingRef = false ∨
          loadKeyStatsNamedPS s resp = (false, s)) ∧
    (∀ (s : ProviderStatsState012) (now₀ now₁ : ℚ) resp,
        staleGuard s.lastRefreshedAt now₀ = false →
        (loadKeyStats012 s now₀ now₁ resp).1 = true) ∧
    (∀ (s : ProviderStatsState012) (now₁ : ℚ) resp,
        (refreshKeyStats012 s now₁ resp).1 = true) ∧
    (∀ (s : AuthFilesStatsState002) (now₁ : ℚ) resp,
        (refreshKeyStats002 s now₁ resp).1 = true) := by
  refine ⟨?_, ?_, ?_, ?_, ?_, ?_, ?_⟩
  · intro s resp h
    simp [loadKeyStatsNamedAF, h]
  · intro s resp
    by_cases h : s.loadingKeyStats
    · right; simp [loadKeyStatsNamedAF, h]
    · left; cases resp <;> simp [loadKeyStatsNamedAF, h]
  · intro s resp h
    simp [loadKeyStatsNamedPS, h]
  · intro s resp
    by_cases h : s.loadingRef
    · right; simp [loadKeyStatsNamedPS, h]
    · left; cases resp <;> simp [loadKeyStatsNamedPS, h]
  · intro s now₀ now₁ resp h
    cases resp <;> simp [loadKeyStats012, h]
  · intro s now₁ resp
    cases resp <;> rfl
  · intro s now₁ resp
    cases resp <;> rfl

theorem inflight_guard_behavior_witness :
    loadKeyStatsNamedAF ⟨EMPTY_KEY_STATS, [], true⟩ none =
      (false, ⟨EMPTY_KEY_STATS, [], true⟩) ∧
    (loadKeyStats012 ⟨EMPTY_KEY_STATS, [], true, some 0⟩ 5 6 none).1 = true :=
  ⟨inflight_guard_behavior.1 _ none rfl,
   inflight_guard_behavior.2.2.2.2.1 _ 5 6 none rfl⟩

/-! ### C2: per-block classification of `blocksToStatusBarData` (copy 2) -/

/-- Claim-side classification: `idle` when the total is zero, `success` when
    `failure = 0` and the total is positive, `failure` when `success = 0` and
    the total is positive, `mixed` otherwise. -/
def specBlockState (s f : ℚ) : StatusBlockState :=
  if s + f = 0 then .idle
  else if f = 0 ∧ 0 < s + f then .success
  else if s = 0 ∧ 0 < s + f then .failure
  else .mixed

/-- Claim-side details: `rate = success/total` when positive else `-1`,
    `startTime = windowStart + index*blockDuration`, `endTime = startTime + dur`. -/
def specBlockDetails (ws dur : ℚ) : ℕ → List BlockStat → List StatusBlockDetail
  | _, [] => []
  | i, b :: r =>
    ⟨b.success, b.failure,
      if 0 < b.success + b.failure then b.success / (b.success + b.failure) else -1,
      ws + (i : ℚ) * dur, ws + (i : ℚ) * dur + dur⟩ :: specBlockDetails ws dur (i + 1) r

/-- For non-negative counts the source's if-chain agrees with the claim's
    classification. -/
lemma classify_eq (s f : ℚ) (hs : 0 ≤ s) (hf : 0 ≤ f) :
    (if s + f = 0 then StatusBlockState.idle
     else if f = 0 then .success else if s = 0 then .failure else .mixed) =
      specBlockState s f := by
  unfold specBlockState
  by_cases h0 : s + f = 0
  · rw [if_pos h0, if_pos h0]
  · have hpos : 0 < s + f := lt_of_le_of_ne (add_nonneg hs hf) (Ne.symm h0)
    rw [if_neg h0, if_neg h0]
    by_cases hfz : f = 0
    · rw [if_pos hfz, if_pos (show f = 0 ∧ 0 < s + f from ⟨hfz, hpos⟩)]
    · rw [if_neg hfz, if_neg (show ¬(f = 0 ∧ 0 < s + f) from fun h => hfz h.1)]
      by_cases hsz : s = 0
      · rw [if_pos hsz, if_pos (show s = 0 ∧ 0 < s + f from ⟨hsz, hpos⟩)]
      · rw [if_neg hsz, if_neg (show ¬(s = 0 ∧ 0 < s + f) from fun h => hsz h.1)]

lemma statusBarLoop2_spec (ws dur : ℚ) :
    ∀ (l : List BlockStat) (i : ℕ), (∀ b ∈ l, 0 ≤ b.success ∧ 0 ≤ b.failure) →
      statusBarLoop2 ws dur i l =
        (l.map (fun b => specBlockState b.success b.failure),
         specBlockDetails ws dur i l,
         (l.map BlockStat.success).sum,
         (l.map BlockStat.failure).sum) := by
  intro l
  induction l with
  | nil => intro i h; simp [statusBarLoop2, specBlockDetails]
  | cons b r ih =>
    intro i h
    have hb := h b (List.mem_cons_self b r)
    have hr : ∀ x ∈ r, 0 ≤ x.success ∧ 0 ≤ x.failure :=
      fun x hx => h x (List.mem_cons_of_mem b hx)
    simp only [statusBarLoop2, specBlockDetails, List.map_cons, List.sum_cons]
    rw [ih (i + 1) hr, classify_eq b.success b.failure hb.1 hb.2]

/-- **C2.**  For every non-empty blocks array of non-negative integer counts,
    the copy of `blocksToStatusBarData` at usage.ts lines 435–468 returns one
    state and one detail per input block in input order, classified and
    detailed exactly as the claim states, with the totals summed over all
    blocks and `successRate = totalSuccess/(totalSuccess+totalFailure)*100`
    when any requests exist, else 100. -/
theorem blocksToStatusBarData2_nonempty_spec :
    ∀ (blocks : List BlockStat) (windowStartMs blockDurationMs : ℚ),
      blocks ≠ [] →
      (∀ b ∈ blocks,
        (0 ≤ b.success ∧ b.success.den = 1) ∧ (0 ≤ b.failure ∧ b.failure.den = 1)) →
      (blocksToStatusBarData2 blocks windowStartMs blockDurationMs).blocks =
          blocks.map (fun b => specBlockState b.success b.failure) ∧
      (blocksToStatusBarData2 blocks windowStartMs blockDurationMs).blockDetails =
          specBlockDetails windowStartMs blockDurationMs 0 blocks ∧
      (blocksToStatusBarData2 blocks windowStartMs blockDurationMs).totalSuccess =
          (blocks.map BlockStat.success).sum ∧
      (blocksToStatusBarData2 blocks windowStartMs blockDurationMs).totalFailure =
          (blocks.map BlockStat.failure).sum ∧
      (blocksToStatusBarData2 blocks windowStartMs blockDurationMs).successRate =
          (if 0 < (blocks.map BlockStat.success).sum + (blocks.map BlockStat.failure).sum then
            (blocks.map BlockStat.success).sum /
              ((blocks.map BlockStat.success).sum + (blocks.map BlockStat.failure).sum) * 100
          else 100) := by
  intro blocks ws dur hne h
  have hnn : ∀ b ∈ blocks, 0 ≤ b.success ∧ 0 ≤ b.failure :=
    fun b hb => ⟨(h b hb).1.1, (h b hb).2.1⟩
  simp [blocksToStatusBarData2, if_neg hne, statusBarLoop2_spec ws dur blocks 0 hnn]

theorem blocksToStatusBarData2_nonempty_spec_witness :
    (blocksToStatusBarData2 [⟨3, 0⟩, ⟨0, 0⟩, ⟨1, 2⟩] 0 600000).blocks =
      [.success, .idle, .mixed] ∧
    (blocksToStatusBarData2 [⟨3, 0⟩, ⟨0, 0⟩, ⟨1, 2⟩] 0 600000).successRate = 200 / 3 := by
  have h := blocksToStatusBarData2_nonempty_spec [⟨3, 0⟩, ⟨0, 0⟩, ⟨1, 2⟩] 0 600000
    (by decide) (by decide)
  refine ⟨h.1.trans ?_, h.2.2.2.2.trans ?_⟩
  · norm_num [specBlockState]
  · norm_num

/-! ### C6: buildCandidateUsageSourceIds -/

lemma jsSetDedupAux_nodup : ∀ (l seen : List JStr),
    (jsSetDedupAux seen l).Nodup ∧ ∀ a ∈ jsSetDedupAux seen l, a ∉ seen := by
  intro l
  induction l with
  | nil => intro seen; simp [jsSetDedupAux]
  | cons a r ih =>
    intro seen
    by_cases h : a ∈ seen
    · simpa [jsSetDedupAux, h] using ih seen
    · obtain ⟨ih1, ih2⟩ := ih (a :: seen)
      refine ⟨?_, ?_⟩
      · rw [jsSetDedupAux, if_neg h, List.nodup_cons]
        exact ⟨fun hx => ih2 a hx (List.mem_cons_self a seen), ih1⟩
      · intro x hx
        rw [jsSetDedupAux, if_neg h] at hx
        rcases List.mem_cons.mp hx with hxa | hxr
        · exact hxa ▸ h
        · exact fun hxs => ih2 x hxr (List.mem_cons_of_mem a hxs)

/-- **C6.**  When both `apiKey` and `prefix` are non-empty after trimming,
    `buildCandidateUsourceIds` returns exactly the three distinct ids
    `t:<trimmed prefix>`, `k:<fingerprint>`, `m:<masked>` in that order
    (prefix-derived id first, then the key-derived forms); in general the
    result never contains duplicates (first occurrences are kept).
    `maskApiKey` is modelled from the spec (its source file is not provided);
    the distinctness and order do not depend on its output. -/
theorem buildCandidateUsageSourceIds_spec :
    (∀ (apiKey pfx : JStr), trimJs pfx ≠ [] → trimJs apiKey ≠ [] →
        buildCandidateUsageSourceIds ⟨some apiKey, some pfx⟩ =
          ["t:".data ++ trimJs pfx, "k:".data ++ fnv1a64Hex (trimJs apiKey),
            "m:".data ++ maskApiKey (trimJs apiKey)] ∧
        (["t:".data ++ trimJs pfx, "k:".data ++ fnv1a64Hex (trimJs apiKey),
            "m:".data ++ maskApiKey (trimJs apiKey)] : List JStr).Nodup) ∧
    (∀ input, (buildCandidateUsageSourceIds input).Nodup) := by
  constructor
  · intro apiKey pfx hp hk
    have ht : "t:".data = ['t', ':'] := rfl
    have hkd : "k:".data = ['k', ':'] := rfl
    have hm : "m:".data = ['m', ':'] := rfl
    have h1 : ('k' : Char) ≠ 't' := by decide
    have h2 : ('m' : Char) ≠ 't' := by decide
    have h3 : ('m' : Char) ≠ 'k' := by decide
    have h4 : ('t' : Char) ≠ 'k' := by decide
    have h5 : ('t' : Char) ≠ 'm' := by decide
    have h6 : ('k' : Char) ≠ 'm' := by decide
    constructor
    · simp only [buildCandidateUsageSourceIds, Option.map_some']
      rw [if_pos hp, if_pos hk]
      simp [jsSetDedup, jsSetDedupAux, ht, hkd, hm, h1, h2, h3]
    · simp [ht, hkd, hm, h1, h2, h3, h4, h5, h6]
  · intro input
    unfold buildCandidateUsageSourceIds jsSetDedup
    exact (jsSetDedupAux_nodup _ _).1

theorem buildCandidateUsageSourceIds_spec_witness :
    buildCandidateUsageSourceIds ⟨some "sk-abc123xyzaaaa".data, some "MyProvider".data⟩ =
      ["t:".data ++ trimJs "MyProvider".data,
        "k:".data ++ fnv1a64Hex (trimJs "sk-abc123xyzaaaa".data),
        "m:".data ++ maskApiKey (trimJs "sk-abc123xyzaaaa".data)] :=
  (buildCandidateUsageSourceIds_spec.1 "sk-abc123xyzaaaa".data "MyProvider".data
    (by decide) (by decide)).1

/-! ### C3: shape of normalizeUsageSourceId results -/

def isLowerHexChar (c : Char) : Bool :=
  (decide ('0' ≤ c) && decide (c ≤ '9')) || (decide ('a' ≤ c) && decide (c ≤ 'f'))

lemma hexDigit_lower (n : ℕ) (h : n < 16) : isLowerHexChar (hexDigit n) = true := by
  interval_cases n <;> decide

lemma natToHexAux_shape : ∀ (fuel n : ℕ), n < 16 ^ fuel →
    (natToHexAux fuel n).length ≤ fuel ∧
    ∀ c ∈ natToHexAux fuel n, isLowerHexChar c = true := by
  intro fuel
  induction fuel with
  | zero =>
    intro n h
    interval_cases n
    exact ⟨Nat.le_refl _, by simp [natToHexAux]⟩
  | succ fuel ih =>
    intro n h
    by_cases h16 : n < 16
    · refine ⟨?_, ?_⟩
      · simp [natToHexAux, h16]
      · intro c hc
        simp [natToHexAux, h16] at hc
        exact hc ▸ hexDigit_lower n h16
    · have hdiv : n / 16 < 16 ^ fuel := by
        rw [Nat.div_lt_iff_lt_mul (by norm_num)]
        calc n < 16 ^ (fuel + 1) := h
          _ = 16 ^ fuel * 16 := by rw [pow_succ]
      obtain ⟨ih1, ih2⟩ := ih (n / 16) hdiv
      refine ⟨?_, ?_⟩
      · simp only [natToHexAux, if_neg h16, List.length_append, List.length_cons,
          List.length_nil]
        omega
      · intro c hc
        simp only [natToHexAux, if_neg h16, List.mem_append, List.mem_cons,
          List.not_mem_nil, or_false] at hc
        rcases hc with hc | hc
        · exact ih2 c hc
        · exact hc ▸ hexDigit_lower _ (Nat.mod_lt n (by norm_num))

lemma fnv1a64Go_lt (l : List Char) : ∀ h : ℕ, h < 2 ^ 64 → fnv1a64Go h l < 2 ^ 64 := by
  induction l with
  | nil => intro h hh; exact hh
  | cons c r ih => intro h hh; exact ih _ (Nat.mod_lt _ (by positivity))

/-- The fingerprint is always exactly 16 lowercase hexadecimal characters. -/
lemma fnv1a64Hex_shape (s : JStr) :
    (fnv1a64Hex s).length = 16 ∧ ∀ c ∈ fnv1a64Hex s, isLowerHexChar c = true := by
  have hlt : fnv1a64Go FNV_OFFSET_BASIS s < 16 ^ 16 := by
    have h2 : (16 : ℕ) ^ 16 = 2 ^ 64 := by norm_num
    rw [h2]
    exact fnv1a64Go_lt s FNV_OFFSET_BASIS (by norm_num [FNV_OFFSET_BASIS])
  obtain ⟨h1, h2⟩ := natToHexAux_shape 16 _ hlt
  refine ⟨?_, ?_⟩
  · simp only [fnv1a64Hex, padStart16, natToHexStr, List.length_append,
      List.length_replicate]
    omega
  · intro c hc
    simp only [fnv1a64Hex, padStart16, natToHexStr, List.mem_append,
      List.mem_replicate] at hc
    rcases hc with hc | hc
    · exact hc.2 ▸ (by decide)
    · exact h2 c hc

/-- Claim-side shape of a usage source id: empty, or `k:` + 16 lowercase hex
    characters, or `m:` + remainder, or `t:` + remainder. -/
def idShapeB (r : JStr) : Bool :=
  (decide (r.take 2 = "k:".data) && decide ((r.drop 2).length = 16) &&
    (r.drop 2).all isLowerHexChar) ||
  decide (r.take 2 = "m:".data) || decide (r.take 2 = "t:".data)

/-- The common tail of both `normalizeUsageSourceId` copies: whatever the
    extraction step produced, the result is non-empty and has one of the three
    tagged shapes. -/
lemma normalizeShape_of (t : JStr) (eo : Option JStr) (masker : JStr → JStr) :
    (match eo with
      | some extracted => "k:".data ++ fnv1a64Hex extracted
      | none => if maskedHintTest t then "m:".data ++ masker t
        else "t:".data ++ t) ≠ [] ∧
    idShapeB (match eo with
      | some extracted => "k:".data ++ fnv1a64Hex extracted
      | none => if maskedHintTest t then "m:".data ++ masker t
        else "t:".data ++ t) = true := by
  cases eo with
  | some e =>
    obtain ⟨h1, h2⟩ := fnv1a64Hex_shape e
    refine ⟨by simp, ?_⟩
    simp only [idShapeB]
    have htake : (("k:".data ++ fnv1a64Hex e).take 2) = "k:".data := rfl
    have hdrop : (("k:".data ++ fnv1a64Hex e).drop 2) = fnv1a64Hex e := rfl
    rw [htake, hdrop]
    simp only [h1, List.all_eq_true, decide_True, Bool.true_and, Bool.and_eq_true,
      Bool.or_eq_true, decide_eq_true_eq]
    exact Or.inl (Or.inl h2)
  | none =>
    by_cases hm : maskedHintTest t
    · refine ⟨by simp [hm], ?_⟩
      simp only [idShapeB, if_pos hm]
      have htake : (("m:".data ++ masker t).take 2) = "m:".data := rfl
      rw [htake]
      simp
    · refine ⟨by simp [hm], ?_⟩
      simp only [idShapeB, if_neg hm]
      have htake : (("t:".data ++ t).take 2) = "t:".data := rfl
      rw [htake]
      simp

/-- **C3.**  For every input value and masking function, both copies of
    `normalizeUsageSourceId` return the empty string exactly when the coerced
    and trimmed input is empty, and otherwise a string beginning with `k:`,
    `m:` or `t:`, where in the `k:` case the remainder is exactly 16 lowercase
    hexadecimal characters. -/
theorem normalizeUsageSourceId_shape :
    ∀ (v : JsVal) (masker : JStr → JStr),
      (normalizeUsageSourceId1 v masker = [] ↔ trimJs (coerceToString v) = []) ∧
      (normalizeUsageSourceId2 v masker = [] ↔ trimJs (coerceToString v) = []) ∧
      (trimJs (coerceToString v) ≠ [] →
        idShapeB (normalizeUsageSourceId1 v masker) = true) ∧
      (trimJs (coerceToString v) ≠ [] →
        idShapeB (normalizeUsageSourceId2 v masker) = true) := by
  intro v masker
  by_cases h : trimJs (coerceToString v) = []
  · refine ⟨?_, ?_, fun hc => absurd h hc, fun hc => absurd h hc⟩ <;>
      simp [normalizeUsageSourceId1, normalizeUsageSourceId2, h]
  · have e1 := normalizeShape_of (trimJs (coerceToString v))
      (extractRawSecretFromText1 (trimJs (coerceToString v))) masker
    have e2 := normalizeShape_of (trimJs (coerceToString v))
      (extractRawSecretFromText2 (trimJs (coerceToString v))) masker
    have u1 : normalizeUsageSourceId1 v masker =
        (match extractRawSecretFromText1 (trimJs (coerceToString v)) with
          | some extracted => "k:".data ++ fnv1a64Hex extracted
          | none => if maskedHintTest (trimJs (coerceToString v)) then
              "m:".data ++ masker (trimJs (coerceToString v))
            else "t:".data ++ trimJs (coerceToString v)) := by
      simp only [normalizeUsageSourceId1, if_neg h]
    have u2 : normalizeUsageSourceId2 v masker =
        (match extractRawSecretFromText2 (trimJs (coerceToString v)) with
          | some extracted => "k:".data ++ fnv1a64Hex extracted
          | none => if maskedHintTest (trimJs (coerceToString v)) then
              "m:".data ++ masker (trimJs (coerceToString v))
            else "t:".data ++ trimJs (coerceToString v)) := by
      simp only [normalizeUsageSourceId2, if_neg h]
    refine ⟨?_, ?_, fun _ => ?_, fun _ => ?_⟩
    · rw [u1]; exact iff_of_false e1.1 h
    · rw [u2]; exact iff_of_false e2.1 h
    · rw [u1]; exact e1.2
    · rw [u2]; exact e2.2

theorem normalizeUsageSourceId_shape_witness :
    normalizeUsageSourceId1 (.str "ab".data) maskApiKey ≠ [] ∧
    idShapeB (normalizeUsageSourceId1 (.str "ab".data) maskApiKey) = true ∧
    idShapeB (normalizeUsageSourceId2 (.str "ab".data) maskApiKey) = true := by
  have h := normalizeUsageSourceId_shape (.str "ab".data) maskApiKey
  exact ⟨fun he => absurd (h.1.mp he) (by decide), h.2.2.1 (by decide), h.2.2.2 (by decide)⟩

/-! ### C5: the query-parameter extraction step -/

/-- **C5, counterexample.**  On
    `"https://h?api_key=!aaaaaaaaaaaaaaaaaaaaaaaaaaaaaaa"` steps (1) and (2)
    fail and the query parameter names the 32-character value
    `"!aaaaaaaaaaaaaaaaaaaaaaaaaaaaaaa"`, which `looksLikeRawSecret` accepts —
    yet the `extractRawSecretFromText` copy at usage.ts lines 80–110 returns
    `null` (its query regex `([&#\s]+)` cannot match this value, and the
    header/Bearer fallbacks find nothing). -/
theorem extractRawSecretFromText1_query_miss :
    looksLikeRawSecret "https://h?api_key=!aaaaaaaaaaaaaaaaaaaaaaaaaaaaaaa".data = false ∧
    keyLikeMatch "https://h?api_key=!aaaaaaaaaaaaaaaaaaaaaaaaaaaaaaa".data = none ∧
    queryScan isQueryVal2 "https://h?api_key=!aaaaaaaaaaaaaaaaaaaaaaaaaaaaaaa".data =
      some "!aaaaaaaaaaaaaaaaaaaaaaaaaaaaaaa".data ∧
    looksLikeRawSecret "!aaaaaaaaaaaaaaaaaaaaaaaaaaaaaaa".data = true ∧
    extractRawSecretFromText1 "https://h?api_key=!aaaaaaaaaaaaaaaaaaaaaaaaaaaaaaa".data =
      none := by
  refine ⟨by decide, by decide, by decide, by decide, by decide⟩

/-- **C5, amended.**  The claim holds of the copy at usage.ts lines 314–344:
    whenever steps (1) and (2) fail but the query-parameter regex (value class
    `[^&#\s]+`) captures a value accepted by `looksLikeRawSecret`, that copy
    returns the captured value, and `normalizeUsageSourceId` (same copy)
    yields `k:` followed by its fingerprint. -/
theorem extractRawSecretFromText2_query_step :
    ∀ (text V : JStr),
      text ≠ [] → looksLikeRawSecret text = false → keyLikeMatch text = none →
      queryScan isQueryVal2 text = some V → looksLikeRawSecret V = true →
      extractRawSecretFromText2 text = some V ∧
      (trimJs text = text →
        normalizeUsageSourceId2 (.str text) = "k:".data ++ fnv1a64Hex V) := by
  intro text V h1 h2 h3 h4 h5
  have he : extractRawSecretFromText2 text = some V := by
    simp [extractRawSecretFromText2, h1, h2, h3, h4, h5]
  refine ⟨he, fun ht => ?_⟩
  simp [normalizeUsageSourceId2, coerceToString, ht, h1, he]

theorem extractRawSecretFromText2_query_step_witness :
    extractRawSecretFromText2 "https://h?api_key=!aaaaaaaaaaaaaaaaaaaaaaaaaaaaaaa".data =
      some "!aaaaaaaaaaaaaaaaaaaaaaaaaaaaaaa".data ∧
    normalizeUsageSourceId2 (.str "https://h?api_key=!aaaaaaaaaaaaaaaaaaaaaaaaaaaaaaa".data) =
      "k:".data ++ fnv1a64Hex "!aaaaaaaaaaaaaaaaaaaaaaaaaaaaaaa".data := by
  have h := extractRawSecretFromText2_query_step
    "https://h?api_key=!aaaaaaaaaaaaaaaaaaaaaaaaaaaaaaa".data
    "!aaaaaaaaaaaaaaaaaaaaaaaaaaaaaaa".data
    (by decide) (by decide) (by decide) (by decide) (by decide)
  exact ⟨h.1, h.2 (by decide)⟩

/-! ### C4: looksLikeRawSecret against the claim's conditions -/

lemma toLowerAscii_eq_slash {c : Char} (h : toLowerAscii c = '/') : c = '/' := by
  by_cases hc : 65 ≤ c.toNat ∧ c.toNat ≤ 90
  · exfalso
    simp only [toLowerAscii, if_pos hc] at h
    obtain ⟨hl, hr⟩ := hc
    have h47 : (Char.ofNat (c.toNat + 32)).toNat = 47 := by rw [h]; rfl
    generalize hg : c.toNat = k at hl hr h47
    interval_cases k <;> exact absurd h47 (by decide)
  · simp only [toLowerAscii, if_neg hc] at h
    exact h

lemma slash_mem_any {text : JStr} (h : '/' ∈ text) :
    (text.any fun c => c == '\\' || c == '/') = true := by
  rw [List.any_eq_true]
  exact ⟨'/', h, by decide⟩

/-- The claim lists the separators as `/` then `\`; the source tests `[\\/]`.
    The two `any` forms agree. -/
lemma any_slash_comm {text : JStr} :
    (text.any fun c => c == '/' || c == '\\') = (text.any fun c => c == '\\' || c == '/') := by
  induction text with
  | nil => rfl
  | cons c r ih => simp [List.any_cons, ih, Bool.or_comm]

/-- If `"http://"`/`"https://"` is a prefix of the lowercased text, the text
    itself contains a `/` (lowercasing never produces `/` from another char). -/
lemma lower_http_slash {text : JStr} (pre : JStr) (hpre : '/' ∈ pre)
    (h : pre.isPrefixOf (text.map toLowerAscii)) :
    (text.any fun c => c == '\\' || c == '/') = true := by
  have hp : pre <+: text.map toLowerAscii := List.isPrefixOf_iff_prefix.mp h
  have hmem : '/' ∈ text.map toLowerAscii := hp.subset hpre
  obtain ⟨c, hc, hlc⟩ := List.mem_map.mp hmem
  exact slash_mem_any ((toLowerAscii_eq_slash hlc) ▸ hc)

lemma text_http_slash {text : JStr} (pre : JStr) (hpre : '/' ∈ pre)
    (h : pre.isPrefixOf text) :
    (text.any fun c => c == '\\' || c == '/') = true :=
  slash_mem_any ((List.isPrefixOf_iff_prefix.mp h).subset hpre)

lemma bool_eq_false {b : Bool} (h : ¬ b = true) : b = false := by
  cases b
  · rfl
  · exact absurd rfl h

/-- The claim's characterisation of `looksLikeRawSecret`, rendered verbatim:
    non-empty, no whitespace, does not end with `.json` case-insensitively,
    does not start with `http://` or `https://`, no `/` or `\`, and either a
    provider key-prefix pattern matches, or the length is in `[32, 512]`, or
    the length is in `[16, 32)` with every character in `[A-Za-z0-9._=-]` and
    at least one letter and at least one digit. -/
def claimRawSecretB (text : JStr) : Bool :=
  decide (text ≠ []) && !(text.any isJsSpace) &&
  !(".json".data.isSuffixOf (text.map toLowerAscii)) &&
  !("http://".data.isPrefixOf text) && !("https://".data.isPrefixOf text) &&
  !(text.any fun c => c == '/' || c == '\\') &&
  ((keyLikeMatch text).isSome ||
    decide (32 ≤ text.length ∧ text.length ≤ 512) ||
    (decide (16 ≤ text.length ∧ text.length < 32) && text.all isIdChar &&
      text.any isAsciiLetter && text.any isAsciiDigit))

/-- **C4.**  `looksLikeRawSecret` accepts exactly the strings described by the
    claim (the source checks the `http` prefixes on the lowercased text, but a
    string whose lowercase starts with `http://`/`https://` contains `/` and is
    rejected by the path-separator rule either way), and in particular both
    copies of `normalizeUsageSourceId` send `"myserver.json"` to
    `"t:myserver.json"`. -/
theorem looksLikeRawSecret_spec :
    (∀ text, looksLikeRawSecret text = claimRawSecretB text) ∧
    normalizeUsageSourceId1 (.str "myserver.json".data) = "t:myserver.json".data ∧
    normalizeUsageSourceId2 (.str "myserver.json".data) = "t:myserver.json".data := by
  refine ⟨?_, by decide, by decide⟩
  intro text
  by_cases h1 : text = []
  · subst h1; decide
  · by_cases h2 : text.any isJsSpace = true
    · have hL : looksLikeRawSecret text = false := by
        simp only [looksLikeRawSecret]
        rw [if_pos (Or.inr h2)]
      have hR : claimRawSecretB text = false := by
        simp only [claimRawSecretB, h2, Bool.not_true, Bool.and_false, Bool.false_and]
      rw [hL, hR]
    · have b2 : text.any isJsSpace = false := bool_eq_false h2
      by_cases h3 : ".json".data.isSuffixOf (text.map toLowerAscii) = true
      · have hL : looksLikeRawSecret text = false := by
          simp only [looksLikeRawSecret]
          rw [if_neg (not_or.mpr ⟨h1, h2⟩), if_pos h3]
        have hR : claimRawSecretB text = false := by
          simp only [claimRawSecretB, h3, Bool.not_true, Bool.and_false, Bool.false_and]
        rw [hL, hR]
      · have b3 : ".json".data.isSuffixOf (text.map toLowerAscii) = false := bool_eq_false h3
        by_cases h4 : (text.any fun c => c == '\\' || c == '/') = true
        · have hR : claimRawSecretB text = false := by
            simp only [claimRawSecretB, any_slash_comm.trans h4, Bool.not_true,
              Bool.and_false, Bool.false_and]
          rw [hR]
          by_cases h5 : ("http://".data.isPrefixOf (text.map toLowerAscii) ∨
              "https://".data.isPrefixOf (text.map toLowerAscii))
          · simp only [looksLikeRawSecret]
            rw [if_neg (not_or.mpr ⟨h1, h2⟩), if_neg h3, if_pos h5]
          · simp only [looksLikeRawSecret]
            rw [if_neg (not_or.mpr ⟨h1, h2⟩), if_neg h3, if_neg h5, if_pos h4]
        · have b4 : (text.any fun c => c == '\\' || c == '/') = false := bool_eq_false h4
          have b4c : (text.any fun c => c == '/' || c == '\\') = false :=
            any_slash_comm.trans b4
          have h5 : ¬("http://".data.isPrefixOf (text.map toLowerAscii) ∨
              "https://".data.isPrefixOf (text.map toLowerAscii)) := by
            rintro (hh | hh) <;> exact h4 (lower_http_slash _ (by decide) hh)
          have b6 : "http://".data.isPrefixOf text = false :=
            bool_eq_false fun hh => h4 (text_http_slash _ (by decide) hh)
          have b7 : "https://".data.isPrefixOf text = false :=
            bool_eq_false fun hh => h4 (text_http_slash _ (by decide) hh)
          have hL : looksLikeRawSecret text =
              (if (keyLikeMatch text).isSome then true
               else if 32 ≤ text.length ∧ text.length ≤ 512 then true
               else if 16 ≤ text.length ∧ text.length < 32 ∧ text ≠ [] ∧
                   text.all isIdChar then
                 text.any isAsciiLetter && text.any isAsciiDigit
               else false) := by
            simp only [looksLikeRawSecret]
            rw [if_neg (not_or.mpr ⟨h1, h2⟩), if_neg h3, if_neg h5, if_neg h4]
          have hR : claimRawSecretB text =
              ((keyLikeMatch text).isSome ||
                decide (32 ≤ text.length ∧ text.length ≤ 512) ||
                (decide (16 ≤ text.length ∧ text.length < 32) && text.all isIdChar &&
                  text.any isAsciiLetter && text.any isAsciiDigit)) := by
            simp only [claimRawSecretB, b2, b3, b4c, b6, b7, decide_eq_true h1,
              Bool.not_false, Bool.true_and, Bool.and_true]
          rw [hL, hR]
          by_cases hk : (keyLikeMatch text).isSome = true
          · rw [if_pos hk, hk, Bool.true_or, Bool.true_or]
          · rw [if_neg hk, bool_eq_false hk, Bool.false_or]
            by_cases hlen : 32 ≤ text.length ∧ text.length ≤ 512
            · rw [if_pos hlen, decide_eq_true hlen, Bool.true_or]
            · rw [if_neg hlen, decide_eq_false hlen, Bool.false_or]
              by_cases hmid : 16 ≤ text.length ∧ text.length < 32 ∧ text ≠ [] ∧
                  text.all isIdChar
              · rw [if_pos hmid, decide_eq_true ⟨hmid.1, hmid.2.1⟩, hmid.2.2.2,
                  Bool.true_and, Bool.true_and]
              · rw [if_neg hmid]
                by_cases ha : text.all isIdChar = true
                · have hx : ¬(16 ≤ text.length ∧ text.length < 32) :=
                    fun hc => hmid ⟨hc.1, hc.2, h1, ha⟩
                  rw [decide_eq_false hx, Bool.false_and, Bool.false_and, Bool.false_and]
                · rw [bool_eq_false ha, Bool.and_false, Bool.false_and, Bool.false_and]
